import Mathlib

/-!
Shallow embedding of the core of the `calculadoras-ragnarok` application:
the Special Pharmacy formula evaluator (`core/engine.py`), the outcome
enumerator and probability bucketizer (`core/stats.py`), the rules model
(`core/pharmacy_special.py`), recipe parsing (`core/catalog.py`) and the
production-cost aggregation (`gui/pages/custo_producao.py`).

Python integers are modelled as `Int`, Python floats produced by the exact
arithmetic here (halves and ratios of integers) as `Rat`, Python dicts as
association lists built with last-wins update (`toDict`), and raised
exceptions as `Except` errors.
-/

namespace CalcApp

instance {ε α : Type} [DecidableEq ε] [DecidableEq α] : DecidableEq (Except ε α) :=
  fun a b =>
    match a, b with
    | .ok x, .ok y => decidable_of_iff (x = y) (by simp)
    | .error x, .error y => decidable_of_iff (x = y) (by simp)
    | .ok _, .error _ => .isFalse (by simp)
    | .error _, .ok _ => .isFalse (by simp)

/-! ### `core/engine.py` -/

def R1_MIN : Int := 30
def R1_MAX : Int := 150
def R2_MIN : Int := 4
def R2_MAX : Int := 10

/-- Python `int(x)`: truncation toward zero of a real (here rational) value. -/
def truncTowardZero (q : ℚ) : Int :=
  if 0 ≤ q then q.floor else q.ceil

/-- The arithmetic body of `special_pharmacy` (`value` followed by `int(value)`).
The division `des_stat / 2.0` is true division; exact here, and exact in IEEE
doubles for all magnitudes the program uses. -/
def special_pharmacy_value (int_stat des_stat sor_stat job_level base_level
    potion_research_level chemical_protection_level
    rand_30_150 rand_4_10 : Int) : Int :=
  truncTowardZero
    ((int_stat : ℚ)
      + (des_stat : ℚ) / 2
      + (sor_stat : ℚ)
      + (job_level : ℚ)
      + (rand_30_150 : ℚ)
      + ((base_level : ℚ) - 100)
      + (potion_research_level : ℚ) * 5
      + (chemical_protection_level : ℚ) * (rand_4_10 : ℚ))

/-- `special_pharmacy` with its range guards; a `ValueError` is an `Except.error`. -/
def special_pharmacy (int_stat des_stat sor_stat job_level base_level
    potion_research_level chemical_protection_level
    rand_30_150 rand_4_10 : Int) : Except String Int :=
  if ¬ (R1_MIN ≤ rand_30_150 ∧ rand_30_150 ≤ R1_MAX) then
    .error "rand_30_150 out of range"
  else if ¬ (R2_MIN ≤ rand_4_10 ∧ rand_4_10 ≤ R2_MAX) then
    .error "rand_4_10 out of range"
  else
    .ok (special_pharmacy_value int_stat des_stat sor_stat job_level base_level
      potion_research_level chemical_protection_level rand_30_150 rand_4_10)

/-! ### `core/stats.py` -/

def SPECIAL_PHARMACY_R1_TOTAL : Nat := (R1_MAX - R1_MIN + 1).toNat
def SPECIAL_PHARMACY_R2_TOTAL : Nat := (R2_MAX - R2_MIN + 1).toNat
def PHARMACY_SPECIAL_TOTAL_COMBOS : Nat :=
  SPECIAL_PHARMACY_R1_TOTAL * SPECIAL_PHARMACY_R2_TOTAL

/-- `enumerate_special_pharmacy_results`: the comprehension over
`r1 in range(R1_MIN, R1_MAX+1)` (outer) and `r2 in range(R2_MIN, R2_MAX+1)`
(inner).  The Python body calls the guarded `special_pharmacy`; every iterated
draw is in range, so the guard provably never fires (see the engine theorems)
and the body equals `special_pharmacy_value`. -/
def enumerate_special_pharmacy_results (int_stat des_stat sor_stat job_level
    base_level potion_research_level chemical_protection_level : Int) : List Int :=
  (List.range' 30 121).flatMap fun r1 =>
    (List.range' 4 7).map fun r2 =>
      special_pharmacy_value int_stat des_stat sor_stat job_level base_level
        potion_research_level chemical_protection_level (r1 : Int) (r2 : Int)

/-- The five tier labels of `pharmacy_special_probability_by_ranges`. -/
inductive Tier
  | MAX
  | MAX3
  | MAX4
  | MAX5
  | MAX6
deriving DecidableEq, Repr

/-- The mutable `counts` dict of the bucketizer loop. -/
structure BucketCounts where
  cMAX : Nat
  cMAX3 : Nat
  cMAX4 : Nat
  cMAX5 : Nat
  cMAX6 : Nat
deriving DecidableEq, Repr

def BucketCounts.get (c : BucketCounts) : Tier → Nat
  | .MAX => c.cMAX
  | .MAX3 => c.cMAX3
  | .MAX4 => c.cMAX4
  | .MAX5 => c.cMAX5
  | .MAX6 => c.cMAX6

def BucketCounts.total (c : BucketCounts) : Nat :=
  c.cMAX + c.cMAX3 + c.cMAX4 + c.cMAX5 + c.cMAX6

/-- One iteration of the bucketizer loop body (the if/elif chain). -/
def bucketStep (difficulty : Int) (c : BucketCounts) (val : Int) : BucketCounts :=
  if val ≥ difficulty + 400 then { c with cMAX := c.cMAX + 1 }
  else if val ≥ difficulty + 300 then { c with cMAX3 := c.cMAX3 + 1 }
  else if val ≥ difficulty + 100 then { c with cMAX4 := c.cMAX4 + 1 }
  else if val ≥ difficulty then { c with cMAX5 := c.cMAX5 + 1 }
  else { c with cMAX6 := c.cMAX6 + 1 }

def bucketCounts (results : List Int) (difficulty : Int) : BucketCounts :=
  results.foldl (bucketStep difficulty) ⟨0, 0, 0, 0, 0⟩

/-- `pharmacy_special_probability_by_ranges`: per label, the pair
`(count, count / PHARMACY_SPECIAL_TOTAL_COMBOS)` (the divisor in the source is
the constant 847, not the input length). -/
def pharmacy_special_probability_by_ranges (results : List Int)
    (difficulty : Int) : Tier → Nat × ℚ :=
  fun t =>
    let c := (bucketCounts results difficulty).get t
    (c, (c : ℚ) / (PHARMACY_SPECIAL_TOTAL_COMBOS : ℚ))

/-- Tier membership as the specification states it: inclusive lower bound,
exclusive upper bound, relative to the difficulty `d`. -/
def tierSpec (d : Int) : Tier → Int → Prop
  | .MAX, v => d + 400 ≤ v
  | .MAX3, v => d + 300 ≤ v ∧ v < d + 400
  | .MAX4, v => d + 100 ≤ v ∧ v < d + 300
  | .MAX5, v => d ≤ v ∧ v < d + 100
  | .MAX6, v => v < d

instance (d : Int) (t : Tier) (v : Int) : Decidable (tierSpec d t v) := by
  cases t <;> unfold tierSpec <;> infer_instance

/-! ### Python dict model

A Python `dict` built by a `{int(k): int(v) for ...}` comprehension is an
association list with unique keys, later bindings overwriting earlier ones. -/

def dictUpd (m : List (Int × Int)) (k v : Int) : List (Int × Int) :=
  if m.any (fun p => p.1 == k) then m.map (fun p => if p.1 == k then (k, v) else p)
  else m ++ [(k, v)]

def toDict (l : List (Int × Int)) : List (Int × Int) :=
  l.foldl (fun m p => dictUpd m p.1 p.2) []

/-- Python `m.get(k)` / `m[k]`. -/
def dictGet? (m : List (Int × Int)) (k : Int) : Option Int :=
  (m.find? (fun p => p.1 == k)).map Prod.snd

/-! ### `core/pharmacy_special.py` -/

def MIN_LEVEL : Int := 0
def MAX_LEVEL : Int := 10

/-- The `RulesError` hierarchy; each constructor is one subclass. -/
inductive RulesError
  | invalidRules (msg : String)
  | levelOutOfRange (msg : String)
  | unknownItemId (msg : String)
deriving DecidableEq, Repr

def RulesError.isInvalidRules : RulesError → Bool
  | .invalidRules _ => true
  | _ => false

/-- A raw rules JSON document: the three sections (each possibly absent) and
the `item_ids` key a document may carry (never read by `from_dict`). -/
structure RulesDoc where
  base_difficulty_by_level : Option (List (Int × Int))
  max_potions_by_level : Option (List (Int × Int))
  base_difficulty_by_item_id : Option (List (Int × Int))
  item_ids : Option (List Int)
deriving DecidableEq, Repr

structure Rules where
  item_ids : List Int
  diff_by_level : List (Int × Int)
  max_by_level : List (Int × Int)
  diff_by_item_id : List (Int × Int)
deriving DecidableEq, Repr

/-- `Rules._validate`: the checks in source order.  Note the level-key range
check runs over `diff_by_level` only. -/
def Rules.validate (r : Rules) : Except RulesError Unit :=
  let missing :=
    (if r.diff_by_level = [] then ["base_difficulty_by_level"] else []) ++
    (if r.max_by_level = [] then ["max_potions_by_level"] else []) ++
    (if r.diff_by_item_id = [] then ["base_difficulty_by_item_id"] else [])
  if missing ≠ [] then
    .error (.invalidRules ("Missing or empty sections: " ++ String.intercalate ", " missing))
  else
    match r.diff_by_level.find? (fun p => !(decide (MIN_LEVEL ≤ p.1) && decide (p.1 ≤ MAX_LEVEL))) with
    | some p =>
        .error (.invalidRules ("Invalid level key " ++ toString p.1))
    | none =>
        if r.diff_by_level.any (fun p => decide (p.2 < 0)) then
          .error (.invalidRules "base_difficulty_by_level must be non-negative integers.")
        else if r.max_by_level.any (fun p => decide (p.2 < 0)) then
          .error (.invalidRules "max_potions_by_level must be non-negative integers.")
        else if r.diff_by_item_id.any (fun p => decide (p.2 < 0)) then
          .error (.invalidRules "base_difficulty_by_item_id must be non-negative integers.")
        else .ok ()

/-- The `rules = cls(...)` construction inside `from_dict`: coerce the three
sections (dict semantics) and derive `item_ids` from the keys of
`base_difficulty_by_item_id` sorted ascending.  The `item_ids` key of the
document is never read. -/
def Rules.build (data : RulesDoc) : Rules :=
  { item_ids := List.insertionSort (· ≤ ·)
      ((toDict (data.base_difficulty_by_item_id.getD [])).map Prod.fst)
    diff_by_level := toDict (data.base_difficulty_by_level.getD [])
    max_by_level := toDict (data.max_potions_by_level.getD [])
    diff_by_item_id := toDict (data.base_difficulty_by_item_id.getD []) }

/-- `Rules.from_dict`: build, validate, and return the rules (or the
validation error). -/
def Rules.from_dict (data : RulesDoc) : Except RulesError Rules :=
  match (Rules.build data).validate with
  | .error e => .error e
  | .ok _ => .ok (Rules.build data)

/-- Validity of constructed rules as `_validate` enforces it: the three
sections non-empty, every level key of the difficulty-by-level section inside
[MIN_LEVEL, MAX_LEVEL], and every value of every section non-negative. -/
def ValidRulesSpec (r : Rules) : Prop :=
  r.diff_by_level ≠ [] ∧ r.max_by_level ≠ [] ∧ r.diff_by_item_id ≠ []
  ∧ (∀ p ∈ r.diff_by_level, MIN_LEVEL ≤ p.1 ∧ p.1 ≤ MAX_LEVEL)
  ∧ (∀ p ∈ r.diff_by_level, 0 ≤ p.2)
  ∧ (∀ p ∈ r.max_by_level, 0 ≤ p.2)
  ∧ (∀ p ∈ r.diff_by_item_id, 0 ≤ p.2)

def Rules.base_difficulty_by_level_q (r : Rules) (level : Int) : Except RulesError Int :=
  match dictGet? r.diff_by_level level with
  | some v => .ok v
  | none => .error (.levelOutOfRange ("Invalid Pharmacy level " ++ toString level))

def Rules.base_difficulty_by_item_id_q (r : Rules) (item_id : Int) : Except RulesError Int :=
  match dictGet? r.diff_by_item_id item_id with
  | some v => .ok v
  | none => .error (.unknownItemId ("Item ID " ++ toString item_id ++ " not found in rules."))

def Rules.potion_cap (r : Rules) (level fallback : Int) : Int :=
  (dictGet? r.max_by_level level).getD fallback

/-- Document of test scenario 1: three well-formed sections, no `item_ids`. -/
def scenario1Doc : RulesDoc :=
  ⟨some [(0, 0), (1, 10), (10, 100)], some [(0, 1), (1, 2), (10, 10)],
    some [(1001, 5), (1002, 15)], none⟩

/-- The rules `from_dict` produces for `scenario1Doc`. -/
def scenario1Rules : Rules :=
  ⟨[1001, 1002], [(0, 0), (1, 10), (10, 100)], [(0, 1), (1, 2), (10, 10)],
    [(1001, 5), (1002, 15)]⟩

/-- Document with a potion-cap level key 99, outside [0,10]. -/
def c5RangeDoc : RulesDoc :=
  ⟨some [(0, 0)], some [(99, 1)], some [(1001, 5)], none⟩

/-- Document missing the difficulty-by-item section. -/
def c5MissingDoc : RulesDoc :=
  ⟨some [(0, 0), (1, 10), (10, 100)], some [(0, 1)], none, none⟩

/-! ### `core/catalog.py` — recipe parsing -/

/-- Digit run of Python `int(...)`: decimal digits, single underscores allowed
between digits only. -/
def pyDigitsGo (acc : Nat) : List Char → Option Nat
  | [] => some acc
  | '_' :: c :: cs =>
      if c.isDigit then pyDigitsGo (acc * 10 + (c.toNat - 48)) cs else none
  | c :: cs =>
      if c.isDigit then pyDigitsGo (acc * 10 + (c.toNat - 48)) cs else none

def pyNat? : List Char → Option Nat
  | [] => none
  | c :: rest => if c.isDigit then pyDigitsGo (c.toNat - 48) rest else none

/-- Python `int(s)` on an already space-free string: optional sign, then a
digit run; `none` models the `ValueError`. -/
def pyInt? : List Char → Option Int
  | '-' :: rest => (pyNat? rest).map (fun n => -(n : Int))
  | '+' :: rest => (pyNat? rest).map (fun n => (n : Int))
  | cs => (pyNat? cs).map (fun n => (n : Int))

/-- `s.split(sep)` on character lists: `""` splits to `[""]`, separators at
the ends produce empty segments, as in Python. -/
def splitOnChar (sep : Char) (cs : List Char) : List (List Char) :=
  cs.foldr
    (fun c acc =>
      match acc with
      | [] => [[c]]
      | g :: gs => if c = sep then [] :: g :: gs else (c :: g) :: gs)
    [[]]

/-- `s.split(sep, 1)` when the separator occurs: the part before the first
occurrence and the untouched remainder; `none` when it does not occur (the
two-name unpacking then raises, and the chunk is skipped). -/
def splitFirst? (sep : Char) : List Char → Option (List Char × List Char)
  | [] => none
  | c :: cs =>
      if c = sep then some ([], cs)
      else (splitFirst? sep cs).map fun pq => (c :: pq.1, pq.2)

/-- One loop body of `parse_recipe`: `part.split("_", 1)`, coerce both halves
to int, keep `(mid, qty)` when `qty > 0 and mid >= 0`; any failure skips the
chunk. -/
def parseChunk? (part : List Char) : Option (Int × Int) :=
  match splitFirst? '_' part with
  | none => none
  | some (qty_str, id_str) =>
      match pyInt? qty_str, pyInt? id_str with
      | some qty, some mid => if 0 < qty ∧ 0 ≤ mid then some (mid, qty) else none
      | _, _ => none

def parse_recipe (recipe_field : String) : List (Int × Int) :=
  let s := recipe_field.data.filter (fun c => c ≠ ' ')
  (splitOnChar '+' s).filterMap fun part => if part = [] then none else parseChunk? part

/-! ### `gui/pages/custo_producao.py` — cost aggregation -/

/-- `CustoProducaoPage._materials_cost_per_use`: Σ price(material)·qty over the
recipe, a missing price entry read as 0. -/
def materials_cost_per_use (prices : List (Int × Int)) (recipe : List (Int × Int)) : Int :=
  recipe.foldl (fun total mq => total + (dictGet? prices mq.1).getD 0 * mq.2) 0

/-- The unit-cost expression of `CustoProducaoPage._recompute`:
`(mat / mean) if mean > 0 else None`. -/
def unit_cost (mat : Int) (mean : ℚ) : Option ℚ :=
  if 0 < mean then some ((mat : ℚ) / mean) else none

/-! ## Helper lemmas -/

theorem foldl_add_sum (f : Int × Int → Int) (l : List (Int × Int)) :
    ∀ a : Int, l.foldl (fun t x => t + f x) a = a + (l.map f).sum := by
  induction l with
  | nil => intro a; simp
  | cons x tl ih => intro a; simp [ih]; omega

theorem bucketStep_get (d : Int) (c : BucketCounts) (v : Int) (t : Tier) :
    (bucketStep d c v).get t = c.get t + (if tierSpec d t v then 1 else 0) := by
  cases t <;> simp only [bucketStep, BucketCounts.get, tierSpec] <;>
    split_ifs <;> simp <;> omega

theorem foldl_bucketStep_get (d : Int) (t : Tier) (l : List Int) :
    ∀ c : BucketCounts, (l.foldl (bucketStep d) c).get t
      = c.get t + l.countP (fun v => decide (tierSpec d t v)) := by
  induction l with
  | nil => intro c; simp
  | cons v tl ih =>
    intro c
    rw [List.foldl_cons, ih, bucketStep_get, List.countP_cons]
    by_cases h : tierSpec d t v <;> (simp [h]; try omega)

theorem get_zeroCounts (t : Tier) : (⟨0, 0, 0, 0, 0⟩ : BucketCounts).get t = 0 := by
  cases t <;> rfl

theorem bucketCounts_get_countP (results : List Int) (difficulty : Int) (t : Tier) :
    (bucketCounts results difficulty).get t
      = results.countP (fun v => decide (tierSpec difficulty t v)) := by
  simpa [bucketCounts, get_zeroCounts] using foldl_bucketStep_get difficulty t results ⟨0, 0, 0, 0, 0⟩

theorem bucketStep_total (d : Int) (c : BucketCounts) (v : Int) :
    (bucketStep d c v).total = c.total + 1 := by
  simp only [bucketStep, BucketCounts.total]
  split_ifs <;> simp <;> omega

theorem foldl_bucketStep_total (d : Int) (l : List Int) :
    ∀ c : BucketCounts, (l.foldl (bucketStep d) c).total = c.total + l.length := by
  induction l with
  | nil => intro c; simp
  | cons v tl ih =>
    intro c
    rw [List.foldl_cons, ih, bucketStep_total, List.length_cons]
    omega

theorem dictUpd_keys (m : List (Int × Int)) (k v : Int) :
    (dictUpd m k v).map Prod.fst =
      if m.any (fun p => p.1 == k) then m.map Prod.fst else m.map Prod.fst ++ [k] := by
  by_cases hc : m.any (fun p => p.1 == k) = true
  · simp only [dictUpd, hc, if_true]
    rw [List.map_map]
    refine List.map_congr_left ?_
    intro p _
    by_cases hp : p.1 = k
    · simp [hp]
    · simp [hp]
  · simp [dictUpd, hc]

theorem dictUpd_mem_keys (m : List (Int × Int)) (k v a : Int) :
    a ∈ (dictUpd m k v).map Prod.fst ↔ a ∈ m.map Prod.fst ∨ a = k := by
  rw [dictUpd_keys]
  by_cases hc : m.any (fun p => p.1 == k) = true
  · simp only [hc, if_true]
    constructor
    · exact Or.inl
    · rintro (h | rfl)
      · exact h
      · rcases List.any_eq_true.mp hc with ⟨p, hp, he⟩
        exact List.mem_map.mpr ⟨p, hp, beq_iff_eq.mp he⟩
  · simp [hc]

theorem dictUpd_keys_nodup (m : List (Int × Int)) (k v : Int)
    (h : (m.map Prod.fst).Nodup) : ((dictUpd m k v).map Prod.fst).Nodup := by
  rw [dictUpd_keys]
  by_cases hc : m.any (fun p => p.1 == k) = true
  · simpa [hc] using h
  · have hk : k ∉ m.map Prod.fst := by
      intro hk
      rcases List.mem_map.mp hk with ⟨p, hp, hpk⟩
      exact hc (List.any_eq_true.mpr ⟨p, hp, beq_iff_eq.mpr hpk⟩)
    simp [hc, List.nodup_append, h, hk]

theorem toDict_go_mem (l : List (Int × Int)) :
    ∀ (m : List (Int × Int)) (a : Int),
      a ∈ (l.foldl (fun m p => dictUpd m p.1 p.2) m).map Prod.fst
        ↔ a ∈ m.map Prod.fst ∨ a ∈ l.map Prod.fst := by
  induction l with
  | nil => simp
  | cons p tl ih =>
    intro m a
    rw [List.foldl_cons, ih, dictUpd_mem_keys]
    simp
    tauto

theorem toDict_go_nodup (l : List (Int × Int)) :
    ∀ m, (m.map Prod.fst).Nodup →
      ((l.foldl (fun m p => dictUpd m p.1 p.2) m).map Prod.fst).Nodup := by
  induction l with
  | nil => intro m h; simpa using h
  | cons p tl ih =>
    intro m h
    rw [List.foldl_cons]
    exact ih _ (dictUpd_keys_nodup _ _ _ h)

theorem toDict_keys_nodup (l : List (Int × Int)) : ((toDict l).map Prod.fst).Nodup :=
  toDict_go_nodup l [] (by simp)

theorem toDict_mem_keys (l : List (Int × Int)) (a : Int) :
    a ∈ (toDict l).map Prod.fst ↔ a ∈ l.map Prod.fst := by
  simpa [toDict] using toDict_go_mem l [] a

theorem validate_error_invalid (r : Rules) :
    ∀ e, r.validate = Except.error e → e.isInvalidRules = true := by
  intro e he
  simp only [Rules.validate] at he
  repeat' split at he
  all_goals
    first
      | (injection he with h; subst h; rfl)
      | exact absurd he (by simp)

theorem validate_ok_iff (r : Rules) :
    r.validate = Except.ok () ↔ ValidRulesSpec r := by
  unfold ValidRulesSpec
  simp only [Rules.validate]
  by_cases e1 : r.diff_by_level = []
  · simp [e1]
  by_cases e2 : r.max_by_level = []
  · simp [e1, e2]
  by_cases e3 : r.diff_by_item_id = []
  · simp [e1, e2, e3]
  · simp only [if_neg e1, if_neg e2, if_neg e3, List.nil_append, List.append_nil]
    rw [if_neg (by simp)]
    split
    · next p hfind =>
      have hp := List.find?_some hfind
      have hpm := List.mem_of_find?_eq_some hfind
      constructor
      · intro h; exact absurd h (by simp)
      · rintro ⟨-, -, -, hrange, -⟩
        exfalso
        have hr := hrange p hpm
        simp [MIN_LEVEL, MAX_LEVEL] at hp hr
        omega
    · next hfind =>
      have hall : ∀ p ∈ r.diff_by_level, MIN_LEVEL ≤ p.1 ∧ p.1 ≤ MAX_LEVEL := by
        intro p hp
        have h := List.find?_eq_none.mp hfind p hp
        simpa using h
      by_cases a1 : (r.diff_by_level.any fun p => decide (p.2 < 0)) = true
      · rcases List.any_eq_true.mp a1 with ⟨p, hp, hneg⟩
        simp only [a1, if_true]
        constructor
        · intro h; exact absurd h (by simp)
        · rintro ⟨-, -, -, -, hnn, -⟩
          exfalso
          have := hnn p hp
          simp at hneg
          omega
      · by_cases a2 : (r.max_by_level.any fun p => decide (p.2 < 0)) = true
        · rcases List.any_eq_true.mp a2 with ⟨p, hp, hneg⟩
          simp only [a1, a2, if_false, if_true]
          constructor
          · intro h; exact absurd h (by simp)
          · rintro ⟨-, -, -, -, -, hnn, -⟩
            exfalso
            have := hnn p hp
            simp at hneg
            omega
        · by_cases a3 : (r.diff_by_item_id.any fun p => decide (p.2 < 0)) = true
          · rcases List.any_eq_true.mp a3 with ⟨p, hp, hneg⟩
            simp only [a1, a2, a3, if_false, if_true]
            constructor
            · intro h; exact absurd h (by simp)
            · rintro ⟨-, -, -, -, -, -, hnn⟩
              exfalso
              have := hnn p hp
              simp at hneg
              omega
          · simp only [a1, a2, a3, if_false]
            have n1 : ∀ p ∈ r.diff_by_level, 0 ≤ p.2 := by
              intro p hp; by_contra hc
              exact a1 (List.any_eq_true.mpr ⟨p, hp, by simpa using not_le.mp hc⟩)
            have n2 : ∀ p ∈ r.max_by_level, 0 ≤ p.2 := by
              intro p hp; by_contra hc
              exact a2 (List.any_eq_true.mpr ⟨p, hp, by simpa using not_le.mp hc⟩)
            have n3 : ∀ p ∈ r.diff_by_item_id, 0 ≤ p.2 := by
              intro p hp; by_contra hc
              exact a3 (List.any_eq_true.mpr ⟨p, hp, by simpa using not_le.mp hc⟩)
            simp [e1, e2, e3]
            exact ⟨fun a b h => hall (a, b) h, fun a b h => n1 (a, b) h,
              fun a b h => n2 (a, b) h, fun a b h => n3 (a, b) h⟩

theorem flatMap_range'_map (f : Nat → Nat → Int) (b n : Nat) (hn : 0 < n) :
    ∀ (m a : Nat),
      ((List.range' a m).flatMap fun x => (List.range' b n).map fun y => f x y)
        = (List.range (m * n)).map fun i => f (a + i / n) (b + i % n) := by
  intro m
  induction m with
  | zero => intro a; simp
  | succ m ih =>
    intro a
    rw [List.range'_succ, List.flatMap_cons, ih (a + 1)]
    have hmn : (m + 1) * n = n + m * n := by ring
    rw [hmn, List.range_add, List.map_append]
    congr 1
    · rw [List.range'_eq_map_range, List.map_map]
      refine List.map_congr_left ?_
      intro i hi
      have hi' : i < n := List.mem_range.mp hi
      simp [Function.comp, Nat.div_eq_of_lt hi', Nat.mod_eq_of_lt hi']
    · rw [List.map_map]
      refine List.map_congr_left ?_
      intro i _
      have h1 : (n + i) / n = i / n + 1 := by
        rw [Nat.add_comm]; exact Nat.add_div_right i hn
      have h2 : (n + i) % n = i % n := Nat.add_mod_left n i
      have h3 : a + 1 + i / n = a + (i / n + 1) := by omega
      simp [Function.comp, h1, h2, h3]

/-! ## Claims -/

/-- C2: the enumerator returns exactly 847 integers — the formula value at
every (r1, r2) pair, r1 iterating over [30,150] in the outer loop and r2 over
[4,10] in the inner loop, so entry k is the value at r1 = 30 + k/7 and
r2 = 4 + k%7 — and re-invoking it with identical inputs yields an identical
sequence. -/
theorem enumerate_results_spec (i d s j b p c : Int) :
    enumerate_special_pharmacy_results i d s j b p c
      = (List.range 847).map (fun k =>
          special_pharmacy_value i d s j b p c ((30 + k / 7 : Nat) : Int)
            ((4 + k % 7 : Nat) : Int))
    ∧ (enumerate_special_pharmacy_results i d s j b p c).length = 847
    ∧ enumerate_special_pharmacy_results i d s j b p c
      = enumerate_special_pharmacy_results i d s j b p c := by
  have h := flatMap_range'_map
    (fun x y => special_pharmacy_value i d s j b p c (x : Int) (y : Int)) 4 7
    (by norm_num) 121 30
  have hmain : enumerate_special_pharmacy_results i d s j b p c
      = (List.range 847).map (fun k =>
          special_pharmacy_value i d s j b p c ((30 + k / 7 : Nat) : Int)
            ((4 + k % 7 : Nat) : Int)) := by
    simpa [enumerate_special_pharmacy_results] using h
  exact ⟨hmain, by rw [hmain]; simp, rfl⟩

/-- C1: for in-range draws, `special_pharmacy` returns the truncation toward
zero of intelligence + dexterity/2 (true division) + luck + job level + r1 +
(base level − 100) + potion research·5 + protection·r2; the witness checks the
concrete scenario yielding 420. -/
theorem special_pharmacy_formula_correct (i d s j b p c r1 r2 : Int)
    (h1 : 30 ≤ r1) (h2 : r1 ≤ 150) (h3 : 4 ≤ r2) (h4 : r2 ≤ 10) :
    special_pharmacy i d s j b p c r1 r2 =
      Except.ok (truncTowardZero ((i : ℚ) + (d : ℚ) / 2 + (s : ℚ) + (j : ℚ) + (r1 : ℚ)
        + ((b : ℚ) - 100) + (p : ℚ) * 5 + (c : ℚ) * (r2 : ℚ))) := by
  simp [special_pharmacy, special_pharmacy_value, R1_MIN, R1_MAX, R2_MIN, R2_MAX,
    h1, h2, h3, h4]

/-- C1 witness: intelligence 100, dexterity 100, luck 100, job 50, base 120,
research 10, protection 5, r1 = 30, r2 = 4 yields 420. -/
theorem special_pharmacy_formula_correct_witness :
    special_pharmacy 100 100 100 50 120 10 5 30 4 = Except.ok 420 := by
  rw [special_pharmacy_formula_correct 100 100 100 50 120 10 5 30 4
    (by norm_num) (by norm_num) (by norm_num) (by norm_num)]
  norm_num [truncTowardZero, Rat.floor_def']

/-- C6: `special_pharmacy` fails with its `ValueError` exactly when `r1` lies
outside [30,150] or `r2` lies outside [4,10]; for in-range draws no error is
raised. -/
theorem special_pharmacy_guard (i d s j b p c r1 r2 : Int) :
    (∃ msg, special_pharmacy i d s j b p c r1 r2 = Except.error msg) ↔
      ¬ ((30 ≤ r1 ∧ r1 ≤ 150) ∧ (4 ≤ r2 ∧ r2 ≤ 10)) := by
  by_cases hA : 30 ≤ r1 ∧ r1 ≤ 150 <;> by_cases hB : 4 ≤ r2 ∧ r2 ≤ 10 <;>
    simp [special_pharmacy, R1_MIN, R1_MAX, R2_MIN, R2_MAX, hA, hB]

/-- C3: each outcome lands in exactly one tier per the stated inclusive-lower,
exclusive-upper boundaries — every tier count equals the number of outcomes
satisfying that tier's range predicate — and the five returned counts sum to
the length of the input list. -/
theorem bucketize_partition (results : List Int) (difficulty : Int) :
    (∀ t : Tier, (pharmacy_special_probability_by_ranges results difficulty t).1
        = results.countP (fun v => decide (tierSpec difficulty t v)))
    ∧ (pharmacy_special_probability_by_ranges results difficulty Tier.MAX).1
      + (pharmacy_special_probability_by_ranges results difficulty Tier.MAX3).1
      + (pharmacy_special_probability_by_ranges results difficulty Tier.MAX4).1
      + (pharmacy_special_probability_by_ranges results difficulty Tier.MAX5).1
      + (pharmacy_special_probability_by_ranges results difficulty Tier.MAX6).1
      = results.length := by
  constructor
  · intro t
    simpa [pharmacy_special_probability_by_ranges] using
      bucketCounts_get_countP results difficulty t
  · have htot := foldl_bucketStep_total difficulty results ⟨0, 0, 0, 0, 0⟩
    simp only [BucketCounts.total] at htot
    simp [pharmacy_special_probability_by_ranges, bucketCounts, BucketCounts.get]
    omega

/-- C4 counterexample: on the one-element outcome list `[0]` at difficulty 0,
the MAX-5 probability returned is 1/847, not count/length = 1/1. -/
theorem bucketize_prob_divisor_counterexample :
    (pharmacy_special_probability_by_ranges [0] 0 Tier.MAX5).2
      ≠ ((pharmacy_special_probability_by_ranges [0] 0 Tier.MAX5).1 : ℚ)
        / (([0] : List Int).length : ℚ) := by
  have h : PHARMACY_SPECIAL_TOTAL_COMBOS = 847 := by decide
  norm_num [pharmacy_special_probability_by_ranges, bucketCounts, bucketStep,
    BucketCounts.get, h]

/-- C4 amended: for every outcome list and difficulty, each tier's returned
pair is `(count, count / 847)` — the divisor is the fixed constant
`PHARMACY_SPECIAL_TOTAL_COMBOS = 847`, not the input length. -/
theorem bucketize_prob_divisor (results : List Int) (difficulty : Int) (t : Tier) :
    pharmacy_special_probability_by_ranges results difficulty t
      = ((bucketCounts results difficulty).get t,
          ((bucketCounts results difficulty).get t : ℚ) / 847)
    ∧ PHARMACY_SPECIAL_TOTAL_COMBOS = 847 := by
  have h847 : ((PHARMACY_SPECIAL_TOTAL_COMBOS : Nat) : ℚ) = 847 := by
    have h : PHARMACY_SPECIAL_TOTAL_COMBOS = 847 := by decide
    rw [h]; norm_num
  exact ⟨by simp [pharmacy_special_probability_by_ranges, h847], by decide⟩

/-- C10: bucketizing the empty outcome list does not fail: every tier gets
count 0 and probability 0. -/
theorem bucketize_empty (difficulty : Int) (t : Tier) :
    pharmacy_special_probability_by_ranges [] difficulty t = (0, 0) := by
  simp [pharmacy_special_probability_by_ranges, bucketCounts, get_zeroCounts]

/-- C8: recipe parsing maps each well-formed `QTY_ID` segment of the
`+`-separated, space-stripped input to `(id, qty)` in order and silently
drops malformed segments; the two cited examples evaluate as stated. -/
theorem parse_recipe_spec :
    (∀ s : String, parse_recipe s =
      (splitOnChar '+' (s.data.filter (fun ch => ch ≠ ' '))).filterMap
        (fun part => if part = [] then none else parseChunk? part))
    ∧ parse_recipe "10_713+10_509+1_7455+5_528" = [(713, 10), (509, 10), (7455, 1), (528, 5)]
    ∧ parse_recipe "abc+5_528" = [(528, 5)] :=
  ⟨fun _ => rfl, by decide, by decide⟩

/-- C9: the materials cost per craft attempt is the sum over the recipe of
price·quantity with a missing price read as 0, and the unit cost is
`cost / mean` when the weighted average is positive and the undefined
sentinel (`none`) when it is ≤ 0. -/
theorem production_cost_spec (prices recipe : List (Int × Int)) (mat : Int) (mean : ℚ) :
    materials_cost_per_use prices recipe
        = (recipe.map (fun mq => (dictGet? prices mq.1).getD 0 * mq.2)).sum
    ∧ (0 < mean → unit_cost mat mean = some ((mat : ℚ) / mean))
    ∧ (mean ≤ 0 → unit_cost mat mean = none) := by
  refine ⟨?_, ?_, ?_⟩
  · simpa [materials_cost_per_use] using
      foldl_add_sum (fun mq => (dictGet? prices mq.1).getD 0 * mq.2) recipe 0
  · intro h; simp [unit_cost, h]
  · intro h; simp [unit_cost, not_lt.mpr h]

/-- C5 counterexample: a document whose potion-cap section carries the level
key 99 — outside [0,10] — is accepted by `from_dict`, so out-of-range keys in
that level-keyed mapping do not make construction fail. -/
theorem from_dict_level_key_counterexample :
    (Rules.from_dict c5RangeDoc).isOk = true
    ∧ ((99 : Int), (1 : Int)) ∈ c5RangeDoc.max_potions_by_level.getD []
    ∧ ¬ (MIN_LEVEL ≤ (99 : Int) ∧ (99 : Int) ≤ MAX_LEVEL) :=
  ⟨by decide, by decide, by decide⟩

/-- C5 amended: rules construction succeeds exactly when the three sections
are present and non-empty, every level key of the difficulty-by-level mapping
(only that mapping — potion-cap keys are not range-checked) lies in [0,10],
and every value of every section is non-negative; every construction failure
is an `InvalidRules` error. -/
theorem from_dict_validation (doc : RulesDoc) :
    ((Rules.from_dict doc).isOk = true ↔ ValidRulesSpec (Rules.build doc))
    ∧ (∀ e, Rules.from_dict doc = Except.error e → e.isInvalidRules = true) := by
  constructor
  · rw [← validate_ok_iff]
    cases hv : (Rules.build doc).validate with
    | error e => simp [Rules.from_dict, hv, Except.isOk, Except.toBool]
    | ok u => cases u; simp [Rules.from_dict, hv, Except.isOk, Except.toBool]
  · intro e he
    apply validate_error_invalid (Rules.build doc)
    unfold Rules.from_dict at he
    cases hv : (Rules.build doc).validate with
    | error e2 =>
        simp only [hv] at he
        injection he with h2
        rw [h2]
    | ok u => simp [hv] at he

/-- C5 witness: a document with no difficulty-by-item section is rejected
with an `InvalidRules` error. -/
theorem from_dict_validation_witness :
    Rules.from_dict c5MissingDoc
      = Except.error (RulesError.invalidRules
          "Missing or empty sections: base_difficulty_by_item_id")
    ∧ RulesError.isInvalidRules (RulesError.invalidRules
          "Missing or empty sections: base_difficulty_by_item_id") = true :=
  ⟨by decide, (from_dict_validation c5MissingDoc).2 _ (by decide)⟩

/-- C7: for every accepted document the derived item-id list is the
ascending-sorted key set of the difficulty-by-item section — sorted,
duplicate-free, and containing exactly that section's keys — and the
`item_ids` key of the source document has no influence on construction. -/
theorem itemIds_derived (doc : RulesDoc) (r : Rules)
    (h : Rules.from_dict doc = Except.ok r) :
    (r.item_ids.Sorted (· ≤ ·) ∧ r.item_ids.Nodup
      ∧ (∀ k : Int, k ∈ r.item_ids ↔
          k ∈ (doc.base_difficulty_by_item_id.getD []).map Prod.fst))
    ∧ (∀ ids, Rules.from_dict { doc with item_ids := ids } = Rules.from_dict doc) := by
  have hr : r = Rules.build doc := by
    unfold Rules.from_dict at h
    cases hv : (Rules.build doc).validate with
    | error e => simp [hv] at h
    | ok u =>
        simp only [hv] at h
        injection h with h2
        exact h2.symm
  subst hr
  have hperm := List.perm_insertionSort (· ≤ ·)
    ((toDict (doc.base_difficulty_by_item_id.getD [])).map Prod.fst)
  refine ⟨⟨?_, ?_, ?_⟩, fun ids => rfl⟩
  · exact List.sorted_insertionSort _ _
  · exact hperm.nodup_iff.mpr (toDict_keys_nodup _)
  · intro k
    rw [show (Rules.build doc).item_ids = List.insertionSort (· ≤ ·)
      ((toDict (doc.base_difficulty_by_item_id.getD [])).map Prod.fst) from rfl]
    rw [hperm.mem_iff]
    exact toDict_mem_keys _ k

/-- C7 witness: the scenario-1 document yields the item-id list [1001, 1002],
whose membership matches the keys of its difficulty-by-item section. -/
theorem itemIds_derived_witness :
    Rules.from_dict scenario1Doc = Except.ok scenario1Rules
    ∧ scenario1Rules.item_ids = [1001, 1002]
    ∧ ((1001 : Int) ∈ scenario1Rules.item_ids ↔
        (1001 : Int) ∈ (scenario1Doc.base_difficulty_by_item_id.getD []).map Prod.fst) :=
  ⟨by decide, by decide,
    (itemIds_derived scenario1Doc scenario1Rules (by decide)).1.2.2 1001⟩

/-- C9 witness: recipe `[(713,10),(509,10)]` with prices `{713:5, 509:3}`
costs 80 per attempt, and at weighted average 0 the unit cost is undefined. -/
theorem production_cost_spec_witness :
    materials_cost_per_use [(713, 5), (509, 3)] [(713, 10), (509, 10)] = 80
    ∧ unit_cost 80 0 = none :=
  ⟨by decide,
    (production_cost_spec [(713, 5), (509, 3)] [(713, 10), (509, 10)] 80 0).2.2 (by norm_num)⟩

end CalcApp
